import Mathlib

/-!
Verification of the quizzer-irc core against its specification.

The definitions below are a shallow embedding of the Python sources:
`quiz_game.py` (the `QuizGame` class and the module-level round-flow
functions), `admin.py` (`AdminCommands.stop_game`), `bot.py` (the
`on_disconnect` / `on_join` handlers) and `admin_verifier.py`
(`AdminVerifier`).  Python dictionaries are modelled as association
lists, wall-clock timestamps as integers, and the I/O collaborators
(IRC connection, question files, password files, `random.sample`,
`secrets.token_urlsafe`, bcrypt) as explicit parameters.  Outbound
side effects (messages, channel-mode changes, score persistence) are
collected in an effect list.
-/

namespace Quizzer

/-- Split a character list at every occurrence of `c`, keeping empty
segments — the semantics of Python `str.split(c)`. -/
def splitOnChar (c : Char) : List Char → List (List Char)
  | [] => [[]]
  | x :: xs =>
    match splitOnChar c xs with
    | [] => [[]]
    | r :: rs => if x = c then [] :: r :: rs else (x :: r) :: rs

/-- Python `s.split(c)`. -/
def pySplit (s : String) (c : Char) : List String :=
  (splitOnChar c s.data).map fun l => String.mk l

/-- Python `s.lower()` (ASCII case mapping, which covers the
identities handled by the bot). -/
def pyLower (s : String) : String := String.mk (s.data.map Char.toLower)

/-- Python `s.upper()` (ASCII case mapping). -/
def pyUpper (s : String) : String := String.mk (s.data.map Char.toUpper)

/-- Python `c in s` for a single character. -/
def pyContains (s : String) (c : Char) : Bool := s.data.contains c

/-- Association-list lookup, modelling Python `dict[key]` access. -/
def alookup {α : Type} (k : String) : List (String × α) → Option α
  | [] => none
  | (k', v) :: rest => if k' = k then some v else alookup k rest

/-- Association-list update, modelling Python `dict[key] = value`
(replaces an existing binding in place, otherwise appends). -/
def aset {α : Type} (k : String) (v : α) : List (String × α) → List (String × α)
  | [] => [(k, v)]
  | (k', v') :: rest => if k' = k then (k, v) :: rest else (k', v') :: aset k v rest

/-- Association-list deletion, modelling Python `del dict[key]`. -/
def aerase {α : Type} (k : String) : List (String × α) → List (String × α)
  | [] => []
  | (k', v') :: rest => if k' = k then rest else (k', v') :: aerase k rest

/-- Association-list membership, modelling Python `key in dict`. -/
def amem {α : Type} (k : String) (m : List (String × α)) : Bool :=
  (alookup k m).isSome

/-- Outbound side effects of the core: IRC messages, notices,
channel-mode changes, and calls to the `store_score` collaborator. -/
inductive Effect : Type
  | privmsg (target text : String)
  | notice (target text : String)
  | mode (channel flag : String)
  | storeScore (user : String) (score : Nat)
  deriving Repr, DecidableEq

/-- One quiz question, as stored in `QuizGame.questions`:
`{"answers": {label: text}, "correct": label, "category": name}`. -/
structure QData : Type where
  answers : List (String × String)
  correct : String
  category : String
  deriving Repr, DecidableEq

/-- The mutable state of a `QuizGame` instance (`quiz_game.py`,
`QuizGame.__init__`).  Timestamps are integers; the module-level
`RATE_LIMIT` global is passed to `process_answer` as a parameter. -/
structure QuizState : Type where
  channel : String
  questions : List (String × QData)
  current_question : Option String
  participants : List (String × Nat)
  scores : List (String × Nat)
  game_active : Bool
  question_count : Nat
  answer_time_limit : Nat
  joining_allowed : Bool
  asked_questions : List String
  last_command_time : List (String × Int)
  answered_participants : List (String × Bool)
  game_interrupted : Bool
  deriving Repr, DecidableEq

/-- `QuizGame.__init__(channel, question_count, answer_time_limit)`. -/
def quizInit (channel : String) (question_count answer_time_limit : Nat) : QuizState :=
  { channel := channel
    questions := []
    current_question := none
    participants := []
    scores := []
    game_active := false
    question_count := question_count
    answer_time_limit := answer_time_limit
    joining_allowed := false
    asked_questions := []
    last_command_time := []
    answered_participants := []
    game_interrupted := false }

/-- `QuizGame.reset_game`: clears participants, scores, the current
question, and the active / joining / interrupted flags.  It does not
touch `asked_questions`, `last_command_time` or
`answered_participants`. -/
def reset_game (g : QuizState) : QuizState :=
  { g with participants := []
           scores := []
           current_question := none
           game_active := false
           joining_allowed := false
           game_interrupted := false }

/-- `QuizGame.load_questions(category)`.  The file I/O is modelled by
the parameter `loaded`: `some qs` is the question dictionary read from
the category files, `none` a read failure.  The method first clears
`questions` and `asked_questions` and then fills `questions`. -/
def load_questions (loaded : Option (List (String × QData))) (g : QuizState) :
    Bool × QuizState :=
  match loaded with
  | none => (false, { g with questions := [], asked_questions := [] })
  | some qs => (true, { g with questions := qs, asked_questions := [] })

/-- Two-digit formatting of the question number (`{n:02}`). -/
def fmt02 (n : Nat) : String :=
  if n < 10 then "0" ++ toString n else toString n

/-- `QuizGame.ask_question`: skips a question already in
`asked_questions`, otherwise records it, resets the per-question
state, sets it current and publishes it. -/
def ask_question (g : QuizState) (question : String) (number : Nat) (d : QData) :
    QuizState × List Effect :=
  if g.asked_questions.contains question then (g, [])
  else
    let g1 := { g with asked_questions := g.asked_questions ++ [question]
                       current_question := some question
                       answered_participants := [] }
    let answerMsgs := d.answers.map fun p => Effect.privmsg g.channel ("\x0312" ++ p.1 ++ "\x03: " ++ p.2)
    (g1,
      [Effect.privmsg g.channel " ",
       Effect.privmsg g.channel ("[ Category: \x02" ++ d.category ++ "\x02 ]"),
       Effect.privmsg g.channel " ",
       Effect.privmsg g.channel ("\x0312Question " ++ fmt02 number ++ "\x03: \x02" ++ question ++ "\x02")]
      ++ answerMsgs
      ++ [Effect.privmsg g.channel " ",
          Effect.privmsg g.channel ("You have \x0304" ++ toString g.answer_time_limit ++ "\x03 seconds to answer."),
          Effect.privmsg g.channel " "])

/-- `QuizGame.show_results`: announces the correct answer of the
current question.  A missing key would raise `KeyError` in Python;
that state is unreachable (the current question is always a loaded
key) and is modelled with a default. -/
def show_results (g : QuizState) : QuizState × List Effect :=
  let q := g.current_question.getD ""
  let d := (alookup q g.questions).getD ⟨[], "", ""⟩
  let txt := (alookup d.correct d.answers).getD ""
  (g, [Effect.privmsg g.channel ("The correct answer was " ++ d.correct ++ ": \x02" ++ txt ++ "\x02"),
       Effect.privmsg g.channel " "])

/-- Insertion step of the descending sort used for score display
(`sorted(..., key=lambda x: x[1], reverse=True)`). -/
def insertDesc (x : String × Nat) : List (String × Nat) → List (String × Nat)
  | [] => [x]
  | y :: ys => if y.2 < x.2 then x :: y :: ys else y :: insertDesc x ys

/-- Sort a score list by score, highest first. -/
def sortScoresDesc (l : List (String × Nat)) : List (String × Nat) :=
  l.foldr insertDesc []

/-- Left-pad-free right padding (`str.ljust`). -/
def ljust (s : String) (n : Nat) : String :=
  s ++ String.mk (List.replicate (n - s.length) ' ')

/-- `QuizGame.end_quiz`: announces winners and scores, un-moderates
the channel, calls `store_score` for every participant, and resets
the round state.  Python's `max` raises on an empty score dictionary;
that case is unreachable from `start_quiz` (participants are given
scores first) and is modelled with default `0`. -/
def end_quiz (g : QuizState) : QuizState × List Effect :=
  let maxScore := (g.scores.map Prod.snd).foldl max 0
  let winners := (g.scores.filter fun p => p.2 = maxScore).map Prod.fst
  let sorted := sortScoresDesc g.scores
  let maxLen := (sorted.map fun p => p.1.length).foldl max 0
  let scoreMsgs := sorted.map fun p =>
    Effect.privmsg g.channel (" " ++ ljust p.1 maxLen ++ " : " ++ toString p.2 ++ " points")
  let stores := g.scores.map fun p => Effect.storeScore p.1 p.2
  (reset_game { g with game_active := false, joining_allowed := false },
    [Effect.privmsg g.channel " ",
     Effect.privmsg g.channel "\x0303Quiz ended.\x03",
     Effect.privmsg g.channel " ",
     Effect.privmsg g.channel ("\x02Winners:\x02 \x0303" ++ String.intercalate ", " winners
        ++ "\x03 with \x0303" ++ toString maxScore ++ " points.\x03"),
     Effect.privmsg g.channel " ",
     Effect.privmsg g.channel "\x02Scores:\x02",
     Effect.privmsg g.channel " "]
    ++ scoreMsgs
    ++ [Effect.privmsg g.channel " ", Effect.mode g.channel "-m"]
    ++ stores)

/-- `scores[user] += 1`.  A missing key raises `KeyError` in Python;
unreachable here because every participant is given a score entry at
the start of the round. -/
def abump (k : String) (m : List (String × Nat)) : List (String × Nat) :=
  match alookup k m with
  | some v => aset k (v + 1) m
  | none => m

/-- `QuizGame.process_answer(user, answer)`.  `rl` is the module
global `RATE_LIMIT`, `now` the value of `time.time()` during the
call. -/
def process_answer (rl : Int) (g : QuizState) (user answer : String) (now : Int) :
    QuizState × List Effect :=
  let rateBlocked : Bool :=
    match alookup user g.last_command_time with
    | some t => decide (now - t < rl)
    | none => false
  if rateBlocked then
    (g, [Effect.privmsg g.channel (user ++ ", please wait before sending another command.")])
  else
    let g1 := { g with last_command_time := aset user now g.last_command_time }
    if !g1.game_active || !(amem user g1.participants) || g1.current_question.isNone then
      (g1, [])
    else if amem user g1.answered_participants then
      (g1, [])
    else
      let q := g1.current_question.getD ""
      let d := (alookup q g1.questions).getD ⟨[], "", ""⟩
      if pyUpper answer == d.correct then
        ({ g1 with scores := abump user g1.scores
                   answered_participants := aset user true g1.answered_participants },
         [Effect.privmsg g1.channel (user ++ " answered \x0303Correct!\x03")])
      else
        ({ g1 with answered_participants := aset user true g1.answered_participants },
         [Effect.privmsg g1.channel (user ++ " answered \x0304Wrong!\x03")])

/-- The question loop of `start_quiz`
(`for i, (question, data) in enumerate(questions, start=1)`): ask,
wait out the answer window, show the results, continue. -/
def ask_loop : QuizState → List (String × QData) → Nat → QuizState × List Effect
  | g, [], _ => (g, [])
  | g, (q, d) :: rest, i =>
    let (g1, e1) := ask_question g q i d
    let (g2, e2) := show_results g1
    let (g3, e3) := ask_loop g2 rest (i + 1)
    (g3, e1 ++ e2 ++ e3)

/-- `start_quiz(quiz_game, actual_category, connection)`: the
recruitment-timer callback.  `sample` models `random.sample`
(selection without replacement), `loaded` the question files read by
`load_questions`. -/
def start_quiz (sample : List (String × QData) → Nat → List (String × QData))
    (loaded : Option (List (String × QData))) (g : QuizState) :
    QuizState × List Effect :=
  if g.participants.isEmpty then
    (reset_game g,
     [Effect.privmsg g.channel "Quiz cancelled due to no participants.",
      Effect.mode g.channel "-m"])
  else
    match load_questions loaded g with
    | (false, g1) => (g1, [Effect.privmsg g.channel "Error: Unable to load questions."])
    | (true, g1) =>
      let g2 := { g1 with game_active := true
                          scores := g1.participants.map fun p => (p.1, 0) }
      let sel := sample g2.questions (min g2.question_count g2.questions.length)
      let (g3, e3) := ask_loop g2 sel 1
      let (g4, e4) := end_quiz g3
      (g4, e3 ++ e4)

/-- `handle_start_command(quiz_game, category, connection, user)`.
The category-hierarchy resolution (`find_category_match`) is modelled
by `resolved` (`none` = category not found) and the question files by
`loaded`.  The returned Boolean records whether the 45-second
recruitment `threading.Timer` was scheduled.  Note that the source
only *notices* the requester when a quiz is already active and then
falls through: it still allows joining and schedules a new timer. -/
def handle_start_command (resolved : Option String)
    (loaded : Option (List (String × QData))) (g : QuizState) (user : String) :
    QuizState × List Effect × Bool :=
  match resolved with
  | none =>
    (g, [Effect.notice user "Error: Category not found. Use !categories to see available categories."], false)
  | some display =>
    match load_questions loaded g with
    | (false, g1) =>
      (g1, [Effect.notice user "Error: Unable to load questions for this category."], false)
    | (true, g1) =>
      let activeNotice :=
        if g1.game_active then [Effect.notice user "A quiz is already active."] else []
      if !g1.game_active && g1.joining_allowed then
        (g1, [Effect.notice user "A quiz is already scheduled to start. Please join now."], false)
      else
        ({ g1 with joining_allowed := true },
         activeNotice ++
         [Effect.privmsg g1.channel " ",
          Effect.privmsg g1.channel ("A quiz on '\x0304" ++ display
            ++ "\x03' category will start in\x0304 45\x03 seconds. \x0303'/msg Quizzer !join'\x03 to participate."),
          Effect.privmsg g1.channel ("The quiz round will consist of \x0303"
            ++ toString g1.question_count ++ "\x03 questions."),
          Effect.privmsg g1.channel "To register your answer to each question: \x0303'/msg Quizzer !a <answer>'\x03",
          Effect.privmsg g1.channel " ",
          Effect.mode g1.channel "+m"],
         true)

/-- `handle_join_command(quiz_game, user, connection)`. -/
def handle_join_command (g : QuizState) (user : String) : QuizState × List Effect :=
  if !g.game_active && !g.joining_allowed then
    (g, [Effect.notice user "Sorry, there is no quiz currently accepting participants."])
  else if g.game_active then
    (g, [Effect.notice user "Sorry, a quiz is already in progress. Please wait for the next round."])
  else if amem user g.participants then
    (g, [Effect.notice user "You have already registered for the quiz."])
  else
    ({ g with participants := aset user 0 g.participants },
     [Effect.privmsg g.channel (user ++ " has joined the quiz! Good luck!")])

/-- `AdminCommands.stop_game(connection, nick)` (`admin.py`): only
flips `game_active` off when a game is active; otherwise reports that
there is nothing to stop.  No other round state is touched and no
score is persisted. -/
def stop_game (g : QuizState) (nick : String) : QuizState × List Effect :=
  if g.game_active then
    ({ g with game_active := false },
     [Effect.privmsg g.channel "Game has been stopped by an admin."])
  else
    (g, [Effect.privmsg nick "No active game to stop."])

/-- `QuizzerBot.on_disconnect` (`bot.py`), restricted to its effect on
the quiz state: when a reconnect is intended and a game is active, the
game is cancelled and flagged interrupted.  The reconnection/backoff
I/O that follows is transport plumbing and emits no game effects. -/
def on_disconnect (should_reconnect : Bool) (g : QuizState) : QuizState × List Effect :=
  if !should_reconnect then (g, [])
  else if g.game_active then
    ({ g with game_active := false, game_interrupted := true, joining_allowed := false }, [])
  else (g, [])

/-- `QuizzerBot.on_join` (`bot.py`) in the branch where the bot itself
has (re)joined the channel: if the previous round was interrupted it
announces the interruption, surfaces the partial scores (when any),
clears the flag and resets the round. -/
def on_join_self (g : QuizState) : QuizState × List Effect :=
  if g.game_interrupted then
    let scoreLines :=
      if g.scores.isEmpty then []
      else Effect.privmsg g.channel "Partial scores before interruption:" ::
        (sortScoresDesc g.scores).map fun p =>
          Effect.privmsg g.channel ("  " ++ p.1 ++ ": " ++ toString p.2 ++ " points")
    (reset_game { g with game_interrupted := false },
     [Effect.privmsg g.channel " ",
      Effect.privmsg g.channel "\x0304⚠ The previous quiz was interrupted due to bot disconnection.\x03"]
     ++ scoreLines
     ++ [Effect.privmsg g.channel "The quiz has been cancelled. Please start a new quiz with !start",
         Effect.privmsg g.channel " ",
         Effect.mode g.channel "-m"])
  else (g, [])

/-!
## AdminVerifier (`admin_verifier.py`)

Password hashing (`bcrypt` / `hashlib`) is modelled by the function
parameter `checkpw : plaintext → storedHash → Bool` (the control flow
of `verify_password` never inspects the hash beyond this call);
`secrets.token_urlsafe` by the `tok` parameter and `time.time()` by
the integer `now`.
-/

/-- The mutable state of an `AdminVerifier` instance.
`failed_attempts` maps a lower-cased nick to
`(count, lockout_until)`, `sessions` to `(expiry, token)`. -/
structure VState : Type where
  admin_nicks : List String
  password_hashes : List (String × String)
  sessions : List (String × (Int × String))
  session_timeout : Nat
  failed_attempts : List (String × (Nat × Int))
  max_attempts : Nat
  lockout_duration : Nat
  deriving Repr, DecidableEq

/-- `AdminVerifier.__init__`: stores the admin list lower-cased; the
password hashes (read from `.env` / `admin_passwords.yaml` by
`_load_passwords`) are a parameter. -/
def mkVerifier (admin_nicks : List String) (session_timeout max_attempts lockout_duration : Nat)
    (password_hashes : List (String × String)) : VState :=
  { admin_nicks := admin_nicks.map (fun n => pyLower n)
    password_hashes := password_hashes
    sessions := []
    session_timeout := session_timeout
    failed_attempts := []
    max_attempts := max_attempts
    lockout_duration := lockout_duration }

/-- `AdminVerifier.is_admin(nick)`: case-insensitive membership in the
admin list. -/
def is_admin (v : VState) (nick : String) : Bool :=
  v.admin_nicks.contains (pyLower nick)

/-- The body of `AdminVerifier.verify_password` after the lockout
check, operating on the (possibly lazily-reset) state. -/
def verify_password_core (checkpw : String → String → Bool) (v : VState)
    (nick password : String) (now : Int) (tok : String) :
    Bool × String × VState :=
  let nickLower := pyLower nick
  if !(is_admin v nick) then
    (false, "You are not an admin.", v)
  else
    match alookup nickLower v.password_hashes with
    | none => (false, "No password set for this admin. Contact bot owner.", v)
    | some hashed =>
      if checkpw password hashed then
        let expiry := now + (v.session_timeout : Int)
        let v1 := { v with sessions := aset nickLower (expiry, tok) v.sessions }
        let v2 := { v1 with failed_attempts := aerase nickLower v1.failed_attempts }
        (true, "Admin verification successful. Session valid for "
          ++ toString (v.session_timeout / 60) ++ " minutes.", v2)
      else
        let fa := v.failed_attempts
        let fa' :=
          if !(amem nickLower fa) then aset nickLower (1, 0) fa
          else
            match alookup nickLower fa with
            | some (count, _) =>
              let count := count + 1
              if v.max_attempts ≤ count then
                aset nickLower (count, now + (v.lockout_duration : Int)) fa
              else
                aset nickLower (count, 0) fa
            | none => fa
        (false, "Incorrect password.", { v with failed_attempts := fa' })

/-- `AdminVerifier.verify_password(nick, password)`: lockout check
first (a record whose `lockout_until` is still in the future is
rejected with the remaining time; one whose `lockout_until` has
passed is deleted), then admin / stored-hash / credential checks. -/
def verify_password (checkpw : String → String → Bool) (v : VState)
    (nick password : String) (now : Int) (tok : String) :
    Bool × String × VState :=
  let nickLower := pyLower nick
  match alookup nickLower v.failed_attempts with
  | some (_, lockout_until) =>
    if now < lockout_until then
      (false, "Too many failed attempts. Locked out for "
        ++ toString (lockout_until - now) ++ " more seconds.", v)
    else
      verify_password_core checkpw
        { v with failed_attempts := aerase nickLower v.failed_attempts }
        nick password now tok
  | none => verify_password_core checkpw v nick password now tok

/-!
## Hostmask matching (`AdminVerifier._match_hostmask`)

The glob branch of the source builds a regular expression with
`p.replace('*', '.*')` and tests it with `re.match`, which anchors at
the start of the field but not at its end.  Inside that regex a `.`
coming from the pattern is itself a metacharacter.  The embedding
below models the regex fragments actually produced by pattern fields
built from literals, `.` and `*` (fields containing other regex
metacharacters are outside this model). -/

/-- A token of the regex `p.replace('*', '.*')`: a literal character,
`.` (any single character), or `.*` (any sequence). -/
inductive GTok : Type
  | lit (c : Char)
  | anychar
  | star
  deriving Repr, DecidableEq

/-- Tokenize a pattern field as the source's `p.replace('*', '.*')`
regex does. -/
def gtokens (p : String) : List GTok :=
  p.data.map fun c =>
    if c = '*' then GTok.star
    else if c = '.' then GTok.anychar
    else GTok.lit c

/-- Can the token list match the empty string (i.e. is it all
`.*`)? -/
def onlyStars : List GTok → Bool
  | [] => true
  | GTok.star :: ts => onlyStars ts
  | _ => false

/-- One character step of the prefix matcher: try to consume `c` with
the head of the token list; `next ts` matches the remaining tokens
against the remaining characters. -/
def gMatchStep (c : Char) (next : List GTok → Bool) : List GTok → Bool
  | [] => true
  | GTok.lit c' :: ts => decide (c' = c) && next ts
  | GTok.anychar :: ts => next ts
  | GTok.star :: ts => gMatchStep c next ts || next (GTok.star :: ts)

/-- `re.match` semantics for such a token list: does the regex match
some prefix of the character list?  (On the empty string only an
all-`.*` regex matches; on `c :: cs` the head token either consumes
`c` or, for `.*`, is skipped.) -/
def gMatchPrefix : List GTok → List Char → Bool
  | ts, [] => onlyStars ts
  | ts, c :: cs' => gMatchStep c (fun ts' => gMatchPrefix ts' cs') ts

/-- One field comparison of `_match_hostmask`: a bare `*` matches
anything; a field containing `*` is matched as a start-anchored
regex; otherwise the field must be literally equal. -/
def matchField (p h : String) : Bool :=
  if p = "*" then true
  else if pyContains p '*' then gMatchPrefix (gtokens p) h.data
  else p == h

/-- `AdminVerifier._match_hostmask(hostmask, pattern)`: both strings
are split on `'!'` only; the field counts must agree and every field
pair must match. -/
def match_hostmask (hostmask pattern : String) : Bool :=
  let pattern_parts := pySplit pattern '!'
  let hostmask_parts := pySplit hostmask '!'
  if pattern_parts.length ≠ hostmask_parts.length then false
  else (pattern_parts.zip hostmask_parts).all fun ph => matchField ph.1 ph.2

/-!
## Declarative semantics for the hostmask matcher

`GlobExact ts cs` says that the regex fragment `ts` matches exactly
the character list `cs`; `re.match` then corresponds to matching some
prefix.  These are used to characterize `match_hostmask`.
-/

/-- Exact-match semantics of a tokenized glob regex. -/
inductive GlobExact : List GTok → List Char → Prop
  | nil : GlobExact [] []
  | lit {c : Char} {ts : List GTok} {cs : List Char} :
      GlobExact ts cs → GlobExact (GTok.lit c :: ts) (c :: cs)
  | anychar {c : Char} {ts : List GTok} {cs : List Char} :
      GlobExact ts cs → GlobExact (GTok.anychar :: ts) (c :: cs)
  | star_skip {ts : List GTok} {cs : List Char} :
      GlobExact ts cs → GlobExact (GTok.star :: ts) cs
  | star_take {c : Char} {ts : List GTok} {cs : List Char} :
      GlobExact (GTok.star :: ts) cs → GlobExact (GTok.star :: ts) (c :: cs)

/-- Declarative description of one field comparison of the source
matcher: a bare `*` matches anything; a field containing `*` matches
when its regex matches a prefix of the field (`*` any sequence, `.`
any single character); any other field matches only literally. -/
def FieldMatches (p h : String) : Prop :=
  p = "*" ∨
    (pyContains p '*' = true ∧ ∃ pre suf, pre ++ suf = h.data ∧ GlobExact (gtokens p) pre) ∨
    (pyContains p '*' = false ∧ p = h)

/-- The claim's field splitting: a mask/pattern is read as fields
delimited by both `!` and `@` (nick, user, host). -/
def splitFieldsClaim (s : String) : List String :=
  ((pySplit s '!').map fun t => pySplit t '@').flatten

/-- Can a `*`-only glob pattern match the empty field (i.e. is it all
`*`)? -/
def onlyStarsChar : List Char → Bool
  | [] => true
  | p :: ps => decide (p = '*') && onlyStarsChar ps

/-- One character step of the full glob matcher with `*` as the only
wildcard. -/
def globStep (c : Char) (next : List Char → Bool) : List Char → Bool
  | [] => false
  | p :: ps =>
    if p = '*' then globStep c next ps || next (p :: ps)
    else decide (p = c) && next ps

/-- Full-field glob match in which `*` is the only wildcard character
— the field semantics asserted by the claim. -/
def globFull : List Char → List Char → Bool
  | ps, [] => onlyStarsChar ps
  | ps, c :: cs' => globStep c (fun ps' => globFull ps' cs') ps

/-- Hostmask matching as the claim describes it: fields delimited by
`!` and `@`, equal field counts required, each field matching
literally, as a bare `*`, or as a full glob whose only wildcard is
`*`. -/
def match_hostmask_claim (hostmask pattern : String) : Bool :=
  let pf := splitFieldsClaim pattern
  let hf := splitFieldsClaim hostmask
  if pf.length ≠ hf.length then false
  else (pf.zip hf).all fun ph =>
    ph.1 == "*" || globFull ph.1.data ph.2.data || ph.1 == ph.2

/-!
## Spec state mapping and concrete fixtures

The spec's round states map to the implementation flags as follows:
`Idle` = neither flag set, `Recruiting` = `joining_allowed` and not
`game_active`, `Active` = `game_active`.
-/

/-- Spec state `Recruiting`. -/
def recruitingState (g : QuizState) : Bool := g.joining_allowed && !g.game_active

/-- Spec state `Active`. -/
def activeState (g : QuizState) : Bool := g.game_active

/-- Spec state `Idle` restricted to the two mode flags. -/
def idleFlags (g : QuizState) : Bool := !g.joining_allowed && !g.game_active

/-- Whether a `stop_game` call announced the forced stop (its success
branch). -/
def stopSucceeded (out : QuizState × List Effect) (chan : String) : Bool :=
  out.2.contains (Effect.privmsg chan "Game has been stopped by an admin.")

/-- A sample question record. -/
def qdSample : QData :=
  { answers := [("A", "Blue"), ("B", "Red"), ("C", "Green"), ("D", "Yellow")]
    correct := "A"
    category := "Science" }

/-- A deterministic instance of the `random.sample` contract: take the
first `k` entries. -/
def takeSample : List (String × QData) → Nat → List (String × QData) :=
  fun l k => l.take k

/-- A mid-round `Active` state: one participant, the first question of
the round currently open.  (`joining_allowed` is still true during an
active round: `start_quiz` never clears it before `end_quiz`.) -/
def gActiveMid : QuizState :=
  { quizInit "#quiz" 5 30 with
      participants := [("alice", 0)]
      scores := [("alice", 0)]
      game_active := true
      joining_allowed := true
      questions := [("Q0?", qdSample)]
      asked_questions := ["Q0?"]
      current_question := some "Q0?" }

/-- A second `!start` issued while `gActiveMid` is active: the source
notices the requester but does not return, so it re-opens joining and
schedules a fresh 45-second recruitment timer. -/
def c1SecondStart : QuizState × List Effect × Bool :=
  handle_start_command (some "Science") (some [("Q1?", qdSample)]) gActiveMid "bob"

/-- The admin then stops the active round. -/
def c1Stopped : QuizState :=
  (stop_game c1SecondStart.1 "admin").1

/-- The pending recruitment timer now fires on the stopped round. -/
def c1Fired : QuizState × List Effect :=
  start_quiz takeSample (some [("Q1?", qdSample)]) c1Stopped

/-- A `Recruiting` state: joining open, one participant, no active
game. -/
def gRecruiting : QuizState :=
  { quizInit "#quiz" 5 30 with
      joining_allowed := true
      participants := [("alice", 0)] }

/-- `p == h` on hashes modelling `_verify_password` when the stored
"hash" equals the plaintext (the control flow of `verify_password`
is independent of the hashing scheme). -/
def eqCheck : String → String → Bool := fun p h => p == h

/-- A verifier with one admin `alice` (stored password `secret`),
`max_attempts = 3`, `lockout_duration = 300`. -/
def vAlice : VState :=
  mkVerifier ["alice"] 3600 3 300 [("alice", "secret")]

/-- An `Idle` state with joining open (start announced, nobody joined
yet). -/
def gJoinable : QuizState :=
  { quizInit "#quiz" 5 30 with joining_allowed := true }

/-- A two-question category. -/
def qsW : List (String × QData) :=
  [("Q1?", qdSample), ("Q2?", qdSample)]

/-- A state in which `alice` acted at time 100. -/
def gBlocked : QuizState :=
  { quizInit "#quiz" 5 30 with last_command_time := [("alice", 100)] }

/-!
## General lemmas about the association-list model
-/

theorem alookup_aset_self {α : Type} (k : String) (v : α) (m : List (String × α)) :
    alookup k (aset k v m) = some v := by
  induction m with
  | nil => simp [aset, alookup]
  | cons p rest ih =>
    obtain ⟨k', v'⟩ := p
    by_cases h : k' = k
    · simp [aset, alookup, h]
    · simp [aset, alookup, h, ih]

theorem alookup_aset_ne {α : Type} {k q : String} (v : α) (m : List (String × α))
    (h : q ≠ k) : alookup q (aset k v m) = alookup q m := by
  have hkq : k ≠ q := fun hh => h hh.symm
  induction m with
  | nil => simp [aset, alookup, hkq]
  | cons p rest ih =>
    obtain ⟨k', v'⟩ := p
    by_cases hk : k' = k
    · subst hk
      simp [aset, alookup, hkq, ih]
    · simp [aset, alookup, hk, ih]

theorem abump_eq (k : String) (m : List (String × Nat)) (s : Nat)
    (h : alookup k m = some s) : abump k m = aset k (s + 1) m := by
  simp [abump, h]

/-!
## Claim theorems
-/

/-- C1: the spec requires a recruitment/deadline timer that fires
after the round was stopped or reset to be a no-op.  The code
violates this: `handle_start_command` issued during an active round
does not return after its "already active" notice — it re-opens
joining and schedules a fresh 45-second timer (`c1SecondStart`, timer
flag `true`); after the admin then stops the round (`c1Stopped`,
`game_active = false`, participants retained), the pending timer's
callback `start_quiz` is not a no-op: it asks a question and
concludes the round, persisting a score. -/
theorem c1_stale_timer_fires :
    c1SecondStart.2.2 = true ∧
    c1Stopped.game_active = false ∧
    c1Stopped.participants = [("alice", 0)] ∧
    c1Fired.1.asked_questions = ["Q1?"] ∧
    Effect.storeScore "alice" 0 ∈ c1Fired.2 := by
  decide

/-- C2 counterexample: the claim says the admin stop succeeds exactly
in states `Recruiting` or `Active`.  In the concrete `Recruiting`
state `gRecruiting` (joining open, game not active) `stop_game` does
not succeed: it leaves the state unchanged (joining still open, so
not `Idle`) and answers "No active game to stop." instead of
announcing a forced stop. -/
theorem c2_counterexample :
    recruitingState gRecruiting = true ∧
    stop_game gRecruiting "bob" =
      (gRecruiting, [Effect.privmsg "bob" "No active game to stop."]) ∧
    stopSucceeded (stop_game gRecruiting "bob") gRecruiting.channel = false := by
  decide

/-- C2 amended: the admin stop succeeds exactly when the round is
`Active` (`game_active` set); a stop during `Recruiting` fails with a
"No active game to stop." reply.  On success only the active flag is
cleared — participants, scores, the joining flag and the current
question are untouched — and no score is persisted. -/
theorem c2_stop_game_amended (g : QuizState) (nick : String) :
    stopSucceeded (stop_game g nick) g.channel = activeState g ∧
    (activeState g = true →
      stop_game g nick =
        ({ g with game_active := false },
         [Effect.privmsg g.channel "Game has been stopped by an admin."])) ∧
    (activeState g = false →
      stop_game g nick = (g, [Effect.privmsg nick "No active game to stop."])) ∧
    (∀ u s, Effect.storeScore u s ∉ (stop_game g nick).2) := by
  cases h : g.game_active <;>
    simp_all [stop_game, stopSucceeded, activeState]

/-- C2 amended, witness: at the concrete `Active` state `gActiveMid`
the stop succeeds and only clears the flag. -/
theorem c2_stop_game_amended_witness :
    activeState gActiveMid = true ∧
    stop_game gActiveMid "admin" =
      ({ gActiveMid with game_active := false },
       [Effect.privmsg gActiveMid.channel "Game has been stopped by an admin."]) :=
  ⟨by decide, (c2_stop_game_amended gActiveMid "admin").2.1 (by decide)⟩

/-- C3 counterexample: a failed password verification does reveal
whether the account exists — a non-admin identity gets "You are not
an admin." while a recognized admin with a wrong credential gets
"Incorrect password.". -/
theorem c3_counterexample :
    (verify_password eqCheck vAlice "bob" "secret" 100 "t").2.1 = "You are not an admin." ∧
    (verify_password eqCheck vAlice "alice" "wrong" 100 "t").2.1 = "Incorrect password." ∧
    "You are not an admin." ≠ "Incorrect password." := by
  decide

/-- C3 amended: a failed, non-locked-out password verification
returns a cause-specific failure message: "You are not an admin." for
an unrecognized identity, "No password set for this admin. Contact
bot owner." for an admin without a stored hash, and "Incorrect
password." for a wrong credential — so the result does distinguish
whether the account exists. -/
theorem c3_failure_messages_amended (checkpw : String → String → Bool) (v : VState)
    (nick password : String) (now : Int) (tok : String)
    (hnolock : alookup (pyLower nick) v.failed_attempts = none) :
    (is_admin v nick = false →
      verify_password checkpw v nick password now tok = (false, "You are not an admin.", v)) ∧
    (is_admin v nick = true → alookup (pyLower nick) v.password_hashes = none →
      verify_password checkpw v nick password now tok =
        (false, "No password set for this admin. Contact bot owner.", v)) ∧
    (∀ hashed, is_admin v nick = true → alookup (pyLower nick) v.password_hashes = some hashed →
      checkpw password hashed = false →
      (verify_password checkpw v nick password now tok).1 = false ∧
      (verify_password checkpw v nick password now tok).2.1 = "Incorrect password.") := by
  refine ⟨?_, ?_, ?_⟩
  · intro hadm
    simp [verify_password, hnolock, verify_password_core, hadm]
  · intro hadm hhash
    simp [verify_password, hnolock, verify_password_core, hadm, hhash]
  · intro hashed hadm hhash hpw
    simp [verify_password, hnolock, verify_password_core, hadm, hhash, hpw]

/-- C3 amended, witness: the wrong-credential case at the concrete
verifier `vAlice`. -/
theorem c3_failure_messages_amended_witness :
    alookup (pyLower "alice") vAlice.failed_attempts = none ∧
    is_admin vAlice "alice" = true ∧
    alookup (pyLower "alice") vAlice.password_hashes = some "secret" ∧
    eqCheck "wrong" "secret" = false ∧
    (verify_password eqCheck vAlice "alice" "wrong" 100 "t").1 = false ∧
    (verify_password eqCheck vAlice "alice" "wrong" 100 "t").2.1 = "Incorrect password." := by
  have h := (c3_failure_messages_amended eqCheck vAlice "alice" "wrong" 100 "t"
      (by decide)).2.2 "secret" (by decide) (by decide) (by decide)
  exact ⟨by decide, by decide, by decide, by decide, h.1, h.2⟩

/-- C4: the claim (and the spec's own concrete scenario) says that
after `max_attempts = 3` consecutive failed password verifications
the next call is rejected with a remaining-lockout message even if
the password is correct.  The code's lazy-expiry check deletes any
`failed_attempts` record whose `lockout_until` (stored as `0` for
non-locked records) lies in the past — i.e. every record — before
counting, so the failure count is reset to 1 on every failure, the
lockout never engages, and the fourth call with the correct password
succeeds. -/
theorem c4_lockout_never_engages :
    (let r1 := verify_password eqCheck vAlice "alice" "bad" 100 "t1"
     let r2 := verify_password eqCheck r1.2.2 "alice" "bad" 200 "t2"
     let r3 := verify_password eqCheck r2.2.2 "alice" "bad" 300 "t3"
     let r4 := verify_password eqCheck r3.2.2 "alice" "secret" 400 "t4"
     r1.1 = false ∧ r2.1 = false ∧ r3.1 = false ∧
     r3.2.2.failed_attempts = [("alice", (1, 0))] ∧
     r4.1 = true ∧
     r4.2.1 = "Admin verification successful. Session valid for 60 minutes.") := by
  decide

/-- C9 counterexample: the quiz round stores identities verbatim, not
lower-cased.  After "Alice" joins, the participant key "alice" is not
found, and a second join as "ALICE" creates a *separate* participant
record — two handles differing only in case do not refer to the same
record.  (Admin verification, by contrast, is case-insensitive.) -/
theorem c9_counterexample :
    (let g1 := (handle_join_command gJoinable "Alice").1
     let g2 := (handle_join_command g1 "ALICE").1
     amem "alice" g1.participants = false ∧
     amem "Alice" g1.participants = true ∧
     g2.participants = [("Alice", 0), ("ALICE", 0)] ∧
     is_admin vAlice "ALICE" = true) := by
  decide

/-- C9 amended: only admin verification canonicalizes identities to
lower case (`is_admin` compares the lower-cased nick against the
lower-cased admin list); the quiz round's join stores the handle
verbatim as the key, and lookups under any other literal key —
including one differing only in case — do not see it. -/
theorem c9_identity_case_amended
    (admins : List String) (st mt ld : Nat) (hashes : List (String × String))
    (nick : String) (g : QuizState) (u v : String)
    (hna : g.game_active = false) (hja : g.joining_allowed = true)
    (hfresh : amem u g.participants = false) (hne : v ≠ u) :
    is_admin (mkVerifier admins st mt ld hashes) nick
      = (admins.map pyLower).contains (pyLower nick) ∧
    (handle_join_command g u).1.participants = aset u 0 g.participants ∧
    alookup v (aset u 0 g.participants) = alookup v g.participants := by
  refine ⟨rfl, ?_, alookup_aset_ne 0 g.participants hne⟩
  simp [handle_join_command, hna, hja, hfresh]

/-- C9 amended, witness: joining as "Alice" leaves lookups for
"alice" unchanged, while `is_admin` is case-insensitive. -/
theorem c9_identity_case_amended_witness :
    gJoinable.game_active = false ∧ gJoinable.joining_allowed = true ∧
    amem "Alice" gJoinable.participants = false ∧ "alice" ≠ "Alice" ∧
    is_admin (mkVerifier ["alice"] 3600 3 300 [("alice", "secret")]) "ALICE"
      = (["alice"].map pyLower).contains (pyLower "ALICE") ∧
    (handle_join_command gJoinable "Alice").1.participants
      = aset "Alice" 0 gJoinable.participants ∧
    alookup "alice" (aset "Alice" 0 gJoinable.participants)
      = alookup "alice" gJoinable.participants := by
  have h := c9_identity_case_amended ["alice"] 3600 3 300 [("alice", "secret")]
      "ALICE" gJoinable "Alice" "alice" (by decide) (by decide) (by decide) (by decide)
  exact ⟨by decide, by decide, by decide, by decide, h.1, h.2.1, h.2.2⟩

/-- C10: a `process_answer` call rejected by the rate limiter leaves
the whole state — in particular the caller's last-action timestamp —
unchanged, while every call that passes the rate-limit check records
`now` as the caller's last-action timestamp, regardless of whether
the answer is afterwards ignored (inactive game, non-participant, no
open question, or already answered). -/
theorem c10_rate_limit_frame (rl : Int) (g : QuizState) (user answer : String) (now : Int) :
    (∀ t, alookup user g.last_command_time = some t → now - t < rl →
      process_answer rl g user answer now =
        (g, [Effect.privmsg g.channel (user ++ ", please wait before sending another command.")])) ∧
    ((∀ t, alookup user g.last_command_time = some t → rl ≤ now - t) →
      alookup user (process_answer rl g user answer now).1.last_command_time = some now) := by
  constructor
  · intro t ht hlt
    simp [process_answer, ht, hlt]
  · intro hpass
    have hblocked : (match alookup user g.last_command_time with
        | some t => decide (now - t < rl)
        | none => false) = false := by
      cases h : alookup user g.last_command_time with
      | none => rfl
      | some t => simpa using not_lt.mpr (hpass t h)
    have hlct : (process_answer rl g user answer now).1.last_command_time
        = aset user now g.last_command_time := by
      simp only [process_answer, hblocked]
      repeat' split
      all_goals first | rfl | simp_all
    rw [hlct, alookup_aset_self]

/-- C10, witness: a rejected call at `gBlocked` (alice acted at time
100, cooldown 10, new call at 105) is a complete no-op on the state;
a passing call (fresh identity) records its timestamp even though the
game is inactive and the answer is ignored. -/
theorem c10_rate_limit_frame_witness :
    alookup "alice" gBlocked.last_command_time = some 100 ∧
    (105 : Int) - 100 < 10 ∧
    process_answer 10 gBlocked "alice" "A" 105 =
      (gBlocked, [Effect.privmsg gBlocked.channel ("alice, please wait before sending another command.")]) ∧
    alookup "bob" (process_answer 10 gBlocked "bob" "A" 105).1.last_command_time = some 105 := by
  refine ⟨by decide, by decide, (c10_rate_limit_frame 10 gBlocked "alice" "A" 105).1 100 (by decide) (by decide), ?_⟩
  exact (c10_rate_limit_frame 10 gBlocked "bob" "A" 105).2
    (by intro t ht; simp [gBlocked, quizInit, alookup] at ht)

/-- C7: for an answer submitted to an open question (rate-limit
passed, game active, caller a scored participant, question open, not
yet answered), and with the stored correct label upper-case invariant
(as the data pipeline guarantees: labels are `A`, `B`, …), the
comparison is case-insensitive: a label equal to the correct label up
to letter case scores exactly one extra point and is announced
correct, any other label leaves the scores unchanged and is announced
wrong. -/
theorem c7_answer_case_insensitive
    (rl : Int) (g : QuizState) (user answer : String) (now : Int)
    (q : String) (d : QData) (s : Nat)
    (hrate : ∀ t, alookup user g.last_command_time = some t → rl ≤ now - t)
    (hact : g.game_active = true)
    (hpart : amem user g.participants = true)
    (hq : g.current_question = some q)
    (hdata : alookup q g.questions = some d)
    (hnoans : amem user g.answered_participants = false)
    (hscore : alookup user g.scores = some s)
    (hupper : pyUpper d.correct = d.correct) :
    (pyUpper answer = pyUpper d.correct →
      alookup user (process_answer rl g user answer now).1.scores = some (s + 1) ∧
      Effect.privmsg g.channel (user ++ " answered \x0303Correct!\x03")
        ∈ (process_answer rl g user answer now).2) ∧
    (pyUpper answer ≠ pyUpper d.correct →
      (process_answer rl g user answer now).1.scores = g.scores ∧
      Effect.privmsg g.channel (user ++ " answered \x0304Wrong!\x03")
        ∈ (process_answer rl g user answer now).2) := by
  have hblocked : (match alookup user g.last_command_time with
      | some t => decide (now - t < rl)
      | none => false) = false := by
    cases h : alookup user g.last_command_time with
    | none => rfl
    | some t => simpa using not_lt.mpr (hrate t h)
  constructor
  · intro hcase
    have hbeq : (pyUpper answer == d.correct) = true :=
      beq_iff_eq.mpr (hcase.trans hupper)
    simp [process_answer, hblocked, hact, hpart, hq, hdata, hnoans, hbeq,
          abump_eq user g.scores s hscore, alookup_aset_self]
  · intro hcase
    have hbeq : (pyUpper answer == d.correct) = false :=
      beq_eq_false_iff_ne.mpr (fun hh => hcase (by rw [hupper]; exact hh))
    simp [process_answer, hblocked, hact, hpart, hq, hdata, hnoans, hbeq]

/-- C7, witness: at `gActiveMid` (question `Q0?` with correct label
`A`), the lower-case answer "a" scores a point for alice. -/
theorem c7_answer_case_insensitive_witness :
    gActiveMid.game_active = true ∧
    gActiveMid.current_question = some "Q0?" ∧
    alookup "Q0?" gActiveMid.questions = some qdSample ∧
    pyUpper "a" = pyUpper qdSample.correct ∧
    alookup "alice" (process_answer 10 gActiveMid "alice" "a" 1000).1.scores = some 1 ∧
    Effect.privmsg gActiveMid.channel "alice answered \x0303Correct!\x03"
      ∈ (process_answer 10 gActiveMid "alice" "a" 1000).2 := by
  have h := (c7_answer_case_insensitive 10 gActiveMid "alice" "a" 1000 "Q0?" qdSample 0
      (by intro t ht; simp [gActiveMid, quizInit, alookup] at ht)
      (by decide) (by decide) (by decide) (by decide) (by decide) (by decide)
      (by decide)).1 (by decide)
  exact ⟨by decide, by decide, by decide, by decide, h.1, h.2⟩

/-- C6: a disconnect during an `Active` round emits nothing, sets the
interruption flag, preserves the accumulated scores and clears the
active flag; neither it nor the reconnection handler ever calls the
score-persistence collaborator; on the bot's next channel join the
partial scores are surfaced (when non-empty) and the round is reset
to `Idle`; a further join surfaces nothing — the scores are surfaced
exactly once. -/
theorem c6_disconnect_flow (g : QuizState) (hact : g.game_active = true) :
    (on_disconnect true g).2 = [] ∧
    (on_disconnect true g).1.game_interrupted = true ∧
    (on_disconnect true g).1.scores = g.scores ∧
    (on_disconnect true g).1.game_active = false ∧
    (∀ u s, Effect.storeScore u s ∉ (on_join_self (on_disconnect true g).1).2) ∧
    (g.scores ≠ [] →
      Effect.privmsg g.channel "Partial scores before interruption:"
        ∈ (on_join_self (on_disconnect true g).1).2) ∧
    (on_join_self (on_disconnect true g).1).1 = reset_game g ∧
    on_join_self (on_join_self (on_disconnect true g).1).1
      = ((on_join_self (on_disconnect true g).1).1, []) := by
  have hd : on_disconnect true g
      = ({ g with game_active := false, game_interrupted := true,
                  joining_allowed := false }, []) := by
    simp [on_disconnect, hact]
  rw [hd]
  refine ⟨rfl, rfl, rfl, rfl, ?_, ?_, rfl, rfl⟩
  · intro u s
    cases h : g.scores.isEmpty <;>
      simp [on_join_self, h, List.mem_append, List.mem_map]
  · intro hs
    have h : g.scores.isEmpty = false := by
      cases h : g.scores with
      | nil => exact absurd h hs
      | cons a l => rfl
    simp [on_join_self, h]

/-- C6, witness: the concrete flow at `gActiveMid`. -/
theorem c6_disconnect_flow_witness :
    gActiveMid.game_active = true ∧
    (on_disconnect true gActiveMid).1.game_interrupted = true ∧
    (on_disconnect true gActiveMid).1.scores = gActiveMid.scores ∧
    (on_join_self (on_disconnect true gActiveMid).1).1 = reset_game gActiveMid ∧
    on_join_self (on_join_self (on_disconnect true gActiveMid).1).1
      = ((on_join_self (on_disconnect true gActiveMid).1).1, []) := by
  have h := c6_disconnect_flow gActiveMid (by decide)
  exact ⟨by decide, h.2.1, h.2.2.1, h.2.2.2.2.2.2.1, h.2.2.2.2.2.2.2⟩

theorem show_results_fst (g : QuizState) : (show_results g).1 = g := rfl

theorem end_quiz_asked (g : QuizState) :
    (end_quiz g).1.asked_questions = g.asked_questions := rfl

/-- The question loop asks exactly the selected questions: when their
texts are pairwise distinct and none was asked before, the
`asked_questions` log extends by exactly the selected texts. -/
theorem ask_loop_asked (sel : List (String × QData)) :
    ∀ (g : QuizState) (i : Nat),
      (sel.map Prod.fst).Nodup →
      (∀ q ∈ sel.map Prod.fst, q ∉ g.asked_questions) →
      (ask_loop g sel i).1.asked_questions
        = g.asked_questions ++ sel.map Prod.fst := by
  induction sel with
  | nil => intro g i _ _; simp [ask_loop]
  | cons qd rest ih =>
    intro g i hnd hfresh
    obtain ⟨q, d⟩ := qd
    have hnd' : (q :: rest.map Prod.fst).Nodup := by simpa using hnd
    have hq : q ∉ g.asked_questions := hfresh q (by simp)
    have hndrest : (rest.map Prod.fst).Nodup := hnd'.of_cons
    have hqrest : q ∉ rest.map Prod.fst := (List.nodup_cons.mp hnd').1
    have hrest : ∀ q' ∈ rest.map Prod.fst,
        q' ∉ g.asked_questions ++ [q] := by
      intro q' hq'
      have h1 : q' ∉ g.asked_questions := hfresh q' (by simp [hq'])
      have h2 : q' ≠ q := fun hh => hqrest (hh ▸ hq')
      simp [h1, h2]
    have hask : (ask_question g q i d).1
        = { g with asked_questions := g.asked_questions ++ [q]
                   current_question := some q
                   answered_participants := [] } := by
      simp [ask_question, hq]
    rw [show ask_loop g ((q, d) :: rest) i
        = (let p1 := ask_question g q i d
           let p2 := show_results p1.1
           let p3 := ask_loop p2.1 rest (i + 1)
           (p3.1, p1.2 ++ p2.2 ++ p3.2)) from rfl]
    simp only [show_results_fst, hask]
    rw [ih _ (i + 1) hndrest hrest]
    simp

/-- C5: a round whose recruitment ends with no participants is
cancelled — the timer callback announces the cancellation, un-moderates
the channel and resets to `Idle`, asking nothing; with at least one
participant the round asks exactly `min(question_count, available)`
questions, pairwise distinct (under the `random.sample` contract:
the selection is a permutation of a sublist of the loaded questions,
of the requested length; question texts are dictionary keys, hence
pairwise distinct). -/
theorem c5_round_question_count
    (sample : List (String × QData) → Nat → List (String × QData))
    (g : QuizState) (qs : List (String × QData))
    (hkeys : (qs.map Prod.fst).Nodup)
    (hsub : ∃ l, (sample qs (min g.question_count qs.length)).Perm l ∧ List.Sublist l qs)
    (hlen : (sample qs (min g.question_count qs.length)).length
        = min g.question_count qs.length) :
    (g.participants = [] →
      start_quiz sample (some qs) g =
        (reset_game g,
         [Effect.privmsg g.channel "Quiz cancelled due to no participants.",
          Effect.mode g.channel "-m"])) ∧
    (g.participants ≠ [] →
      (start_quiz sample (some qs) g).1.asked_questions.length
          = min g.question_count qs.length ∧
      (start_quiz sample (some qs) g).1.asked_questions.Nodup) := by
  constructor
  · intro hp
    simp [start_quiz, hp]
  · intro hp
    have hne : g.participants.isEmpty = false := by
      cases h : g.participants with
      | nil => exact absurd h hp
      | cons a l => rfl
    obtain ⟨l, hperm, hsl⟩ := hsub
    have hsel : ((sample qs (min g.question_count qs.length)).map Prod.fst).Nodup :=
      (hperm.map Prod.fst).nodup_iff.mpr (hkeys.sublist (hsl.map Prod.fst))
    have key : (start_quiz sample (some qs) g).1.asked_questions
        = (sample qs (min g.question_count qs.length)).map Prod.fst := by
      simp only [start_quiz, hne, Bool.false_eq_true, if_false, load_questions]
      rw [end_quiz_asked]
      rw [ask_loop_asked _ _ 1 hsel (by simp)]
      simp
    refine ⟨?_, ?_⟩
    · rw [key, List.length_map, hlen]
    · rw [key]; exact hsel

/-- C5, witness: the two-question category `qsW` with one recruit and
`question_count = 5` asks exactly `min 5 2 = 2` distinct questions. -/
theorem c5_round_question_count_witness :
    gRecruiting.participants ≠ [] ∧
    (start_quiz takeSample (some qsW) gRecruiting).1.asked_questions.length
        = min gRecruiting.question_count qsW.length ∧
    (start_quiz takeSample (some qsW) gRecruiting).1.asked_questions.Nodup := by
  have h := (c5_round_question_count takeSample gRecruiting qsW (by decide)
      ⟨qsW, List.Perm.refl qsW, List.Sublist.refl qsW⟩ rfl).2 (by decide)
  exact ⟨by decide, h.1, h.2⟩

/-- C8 counterexample: the source matcher disagrees with the claim's
semantics on three concrete inputs.  (1) The delimiter: `@` is not a
field separator, so the two-field pattern `*!*` matches the mask
`nick!user@host`, which the claim's three-field reading rejects.
(2) Anchoring: the glob `*b` matches the field `xbz` because
`re.match` only anchors at the start.  (3) Wildcards: `.` in the
pattern `*.c` acts as a one-character wildcard, matching `xQc`. -/
theorem c8_counterexample :
    match_hostmask "nick!user@host" "*!*" = true ∧
    match_hostmask_claim "nick!user@host" "*!*" = false ∧
    match_hostmask "xbz!u" "*b!u" = true ∧
    match_hostmask_claim "xbz!u" "*b!u" = false ∧
    match_hostmask "xQc!u" "*.c!u" = true ∧
    match_hostmask_claim "xQc!u" "*.c!u" = false := by
  decide

theorem onlyStars_iff (ts : List GTok) : onlyStars ts = true ↔ GlobExact ts [] := by
  induction ts with
  | nil => exact ⟨fun _ => GlobExact.nil, fun _ => rfl⟩
  | cons t ts ih =>
    cases t with
    | lit c =>
      exact ⟨fun h => by simp [onlyStars] at h, fun h => by cases h⟩
    | anychar =>
      exact ⟨fun h => by simp [onlyStars] at h, fun h => by cases h⟩
    | star =>
      refine ⟨fun h => GlobExact.star_skip (ih.mp h), fun h => ?_⟩
      cases h with
      | star_skip h' => exact ih.mpr h'

/-- The executable prefix matcher agrees with the declarative
semantics: the regex matches some prefix of the input. -/
theorem gMatchPrefix_iff : ∀ (cs : List Char) (ts : List GTok),
    gMatchPrefix ts cs = true ↔ ∃ pre suf, pre ++ suf = cs ∧ GlobExact ts pre := by
  intro cs
  induction cs with
  | nil =>
    intro ts
    rw [show gMatchPrefix ts [] = onlyStars ts from rfl, onlyStars_iff]
    constructor
    · intro h; exact ⟨[], [], rfl, h⟩
    · rintro ⟨pre, suf, heq, hg⟩
      obtain ⟨h1, h2⟩ := List.append_eq_nil.mp heq
      subst h1; exact hg
  | cons c cs' ihcs =>
    intro ts
    rw [show gMatchPrefix ts (c :: cs')
        = gMatchStep c (fun ts' => gMatchPrefix ts' cs') ts from rfl]
    induction ts with
    | nil =>
      simp only [gMatchStep, true_iff]
      exact ⟨[], c :: cs', rfl, GlobExact.nil⟩
    | cons t ts' ihts =>
      cases t with
      | lit c' =>
        simp only [gMatchStep, Bool.and_eq_true, decide_eq_true_eq]
        constructor
        · rintro ⟨hc, hm⟩
          obtain ⟨pre, suf, heq, hg⟩ := (ihcs ts').mp hm
          subst hc
          exact ⟨c' :: pre, suf, by simp [heq], GlobExact.lit hg⟩
        · rintro ⟨pre, suf, heq, hg⟩
          cases hg with
          | lit hg' =>
            rw [List.cons_append, List.cons.injEq] at heq
            exact ⟨heq.1, (ihcs ts').mpr ⟨_, suf, heq.2, hg'⟩⟩
      | anychar =>
        simp only [gMatchStep]
        constructor
        · intro hm
          obtain ⟨pre, suf, heq, hg⟩ := (ihcs ts').mp hm
          exact ⟨c :: pre, suf, by simp [heq], GlobExact.anychar hg⟩
        · rintro ⟨pre, suf, heq, hg⟩
          cases hg with
          | anychar hg' =>
            rw [List.cons_append, List.cons.injEq] at heq
            exact (ihcs ts').mpr ⟨_, suf, heq.2, hg'⟩
      | star =>
        simp only [gMatchStep, Bool.or_eq_true]
        constructor
        · rintro (h | h)
          · obtain ⟨pre, suf, heq, hg⟩ := ihts.mp h
            exact ⟨pre, suf, heq, GlobExact.star_skip hg⟩
          · obtain ⟨pre, suf, heq, hg⟩ := (ihcs (GTok.star :: ts')).mp h
            exact ⟨c :: pre, suf, by simp [heq], GlobExact.star_take hg⟩
        · rintro ⟨pre, suf, heq, hg⟩
          cases hg with
          | star_skip hg' => exact Or.inl (ihts.mpr ⟨pre, suf, heq, hg'⟩)
          | star_take hg' =>
            rw [List.cons_append, List.cons.injEq] at heq
            exact Or.inr ((ihcs (GTok.star :: ts')).mpr ⟨_, suf, heq.2, hg'⟩)

/-- One field of the source matcher, characterized declaratively. -/
theorem matchField_iff (p h : String) : matchField p h = true ↔ FieldMatches p h := by
  by_cases hps : p = "*"
  · simp [matchField, hps, FieldMatches]
  · by_cases hc : pyContains p '*' = true
    · simp only [matchField, hps, if_false, hc, if_true]
      rw [gMatchPrefix_iff]
      constructor
      · rintro ⟨pre, suf, heq, hg⟩
        exact Or.inr (Or.inl ⟨hc, pre, suf, heq, hg⟩)
      · rintro (h1 | h2 | h3)
        · exact absurd h1 hps
        · obtain ⟨_, pre, suf, heq, hg⟩ := h2
          exact ⟨pre, suf, heq, hg⟩
        · rw [h3.1] at hc; cases hc
    · have hc' : pyContains p '*' = false := Bool.not_eq_true _ ▸ eq_false_of_ne_true hc
      simp only [matchField, hps, if_false, hc', Bool.false_eq_true, beq_iff_eq]
      constructor
      · intro hph
        exact Or.inr (Or.inr ⟨hc', hph⟩)
      · rintro (h1 | h2 | h3)
        · exact absurd h1 hps
        · rw [h2.1] at hc'; cases hc'
        · exact h3.2

theorem zip_all_matchField : ∀ (ps hs : List String),
    (ps.length = hs.length ∧ ((ps.zip hs).all fun ph => matchField ph.1 ph.2) = true)
      ↔ List.Forall₂ FieldMatches ps hs := by
  intro ps
  induction ps with
  | nil =>
    intro hs
    cases hs with
    | nil => simp
    | cons b bs => simp
  | cons a as ih =>
    intro hs
    cases hs with
    | nil => simp
    | cons b bs =>
      rw [List.forall₂_cons, ← ih bs, ← matchField_iff]
      simp only [List.zip_cons_cons, List.all_cons, Bool.and_eq_true, List.length_cons]
      constructor
      · rintro ⟨hlen, hmf, hall⟩
        exact ⟨hmf, Nat.succ_injective hlen, hall⟩
      · rintro ⟨hmf, hlen, hall⟩
        exact ⟨by omega, hmf, hall⟩

/-- C8 amended: the source matcher splits mask and pattern on `!`
only (an `@` stays inside its field), requires equal `!`-field
counts, and matches each field pair per `FieldMatches`: a bare `*`
matches anything; a field containing `*` matches as a *start-anchored*
(not end-anchored) glob in which `*` matches any character sequence
and `.` matches any single character; any other field matches only
literally. -/
theorem c8_match_hostmask_amended (hostmask pattern : String) :
    match_hostmask hostmask pattern = true ↔
      List.Forall₂ FieldMatches (pySplit pattern '!') (pySplit hostmask '!') := by
  unfold match_hostmask
  by_cases hlen : (pySplit pattern '!').length = (pySplit hostmask '!').length
  · rw [if_neg (by simpa using hlen)]
    rw [← zip_all_matchField]
    simp [hlen]
  · rw [if_pos (by simpa using hlen)]
    constructor
    · intro h; cases h
    · intro h; exact absurd h.length_eq hlen

end Quizzer
